import Mathlib

/-!
Shallow embedding of the Beelzebub usage-telemetry agent (Rust), covering the
client's process lifecycle handlers (src/client/src/main.rs), the configuration
admission check (src/client/src/config.rs), the display-name resolver
(src/client/src/win.rs) and the server-side name sanitiser
(src/server/src/util.rs). Machine integers (u32 process ids, u32/u64 durations)
are modelled as Nat: none of the verified operations can overflow their Rust
types' ranges in ways the claims depend on, and no wrapping arithmetic occurs
in the translated code. Fallible OS calls are modelled as explicit parameters
describing the OS's responses; fallible Rust code returns Option/Except.
-/

namespace Beelzebub

/-- Filesystem paths are represented by their normalized component lists,
following the component-wise semantics of Rust's std::path::Path:
Path::starts_with compares parsed components, never raw string bytes. -/
abbrev PathC := List String

/-- Client configuration (src/client/src/config.rs, struct Config):
minimum session duration in seconds (u32, defaulting to 0 when absent from
the Yaml), the monitored path list, the collector base URL and an optional
shared secret. -/
structure Config where
  minimum_duration : Nat
  monitor : List PathC
  url : String
  secret : Option String

/-- Config::is_monitored (src/client/src/config.rs lines 52-59): iterates the
configured monitor paths and returns true on the first monitor for which
path.starts_with(monitor) holds, false when no monitor matches. -/
def Config.is_monitored (cfg : Config) (path : PathC) : Bool :=
  cfg.monitor.any (fun monitor => monitor.isPrefixOf path)

/-- Errors of the client configuration loader
(src/client/src/config.rs, enum Error). -/
inductive ConfigError where
  | DeserialisationError
  | DirectoryError
  | IOError
  deriving DecidableEq

/-! ## Server-side name sanitiser (src/server/src/util.rs) -/

/-- Rust str::split(c): the list of fragments strictly between occurrences of
the separator. The iterator always yields at least one fragment, so the list
is never empty. Strings are modelled as their character lists. -/
def rustSplit (c : Char) : List Char → List (List Char)
  | [] => [[]]
  | x :: xs =>
    if x = c then [] :: rustSplit c xs
    else
      match rustSplit c xs with
      | [] => [[x]]
      | y :: ys => (x :: y) :: ys

/-- clean_name (src/server/src/util.rs lines 1-3):
value.split('\0').next().unwrap_or(value). -/
def clean_name (value : List Char) : List Char :=
  ((rustSplit (Char.ofNat 0) value).head?).getD value

theorem rustSplit_ne_nil (c : Char) (s : List Char) : rustSplit c s ≠ [] := by
  induction s with
  | nil => simp [rustSplit]
  | cons x xs ih =>
    simp only [rustSplit]
    split
    · simp
    · split
      · simp
      · simp

theorem rustSplit_head (c : Char) (s : List Char) :
    (rustSplit c s).head? = some (s.takeWhile (fun a => a != c)) := by
  induction s with
  | nil => simp [rustSplit]
  | cons x xs ih =>
    by_cases hx : x = c
    · subst hx
      simp [rustSplit, List.takeWhile_cons]
    · cases h : rustSplit c xs with
      | nil => exact absurd h (rustSplit_ne_nil c xs)
      | cons y ys =>
        rw [h] at ih
        simp only [List.head?] at ih
        simp [rustSplit, hx, h, List.takeWhile_cons, Option.some.injEq] at ih ⊢
        exact ih

theorem clean_name_eq_takeWhile (s : List Char) :
    clean_name s = s.takeWhile (fun a => a != Char.ofNat 0) := by
  simp [clean_name, rustSplit_head]

/-- C10: clean_name returns the portion of the string before the first NUL
character (takeWhile on "not NUL" is exactly that portion), returns the string
unchanged when it contains no NUL, and is idempotent. -/
theorem C10_clean_name (s : List Char) :
    clean_name s = s.takeWhile (fun a => a != Char.ofNat 0) ∧
    (Char.ofNat 0 ∉ s → clean_name s = s) ∧
    clean_name (clean_name s) = clean_name s := by
  refine ⟨clean_name_eq_takeWhile s, ?_, ?_⟩
  · intro hnul
    rw [clean_name_eq_takeWhile, List.takeWhile_eq_self_iff]
    intro x hx
    simp only [bne_iff_ne, ne_eq]
    intro hc
    exact hnul (hc ▸ hx)
  · rw [clean_name_eq_takeWhile, clean_name_eq_takeWhile,
      List.takeWhile_eq_self_iff]
    intro x hx
    exact List.mem_takeWhile_imp (p := fun a => a != Char.ofNat 0) hx

/-- Witness for C10 at a concrete input with no NUL character. -/
theorem C10_clean_name_witness :
    clean_name ['G', 'T', 'A'] = ['G', 'T', 'A'] :=
  (C10_clean_name ['G', 'T', 'A']).2.1 (by decide)

/-! ## Path admission (claim C3) -/

theorem isPrefixOf_iff_exists (w p : List String) :
    w.isPrefixOf p = true ↔ ∃ t, w ++ t = p := by
  induction w generalizing p with
  | nil => simp [List.isPrefixOf]
  | cons a as ih =>
    cases p with
    | nil => simp [List.isPrefixOf]
    | cons b bs =>
      simp only [List.isPrefixOf, Bool.and_eq_true, beq_iff_eq, ih,
        List.cons_append, List.cons.injEq]
      constructor
      · rintro ⟨rfl, t, rfl⟩
        exact ⟨t, rfl, rfl⟩
      · rintro ⟨t, rfl, rfl⟩
        exact ⟨rfl, t, rfl⟩

/-- C3: is_monitored(P) is true iff some configured WatchedPath W satisfies
P = W or P's component list strictly extends W's component list. Paths are
component lists, so the comparison is component-wise by construction. -/
theorem C3_is_monitored_iff (cfg : Config) (path : PathC) :
    cfg.is_monitored path = true ↔
      ∃ w ∈ cfg.monitor, path = w ∨ ∃ t, t ≠ [] ∧ path = w ++ t := by
  unfold Config.is_monitored
  rw [List.any_eq_true]
  constructor
  · rintro ⟨w, hw, hpre⟩
    rw [isPrefixOf_iff_exists] at hpre
    obtain ⟨t, ht⟩ := hpre
    refine ⟨w, hw, ?_⟩
    cases t with
    | nil =>
      left
      rw [← ht]
      simp
    | cons c cs =>
      right
      exact ⟨c :: cs, by simp, ht.symm⟩
  · rintro ⟨w, hw, h⟩
    refine ⟨w, hw, ?_⟩
    rw [isPrefixOf_iff_exists]
    rcases h with rfl | ⟨t, _, rfl⟩
    · exact ⟨[], by simp⟩
    · exact ⟨t, rfl⟩

/-! ## Display name resolver (src/client/src/win.rs) -/

/-- The fixed fallback list of (language, code-page) pairs
(src/client/src/win.rs lines 14-21, FALLBACK_LANG_CODES), in source order. -/
def FALLBACK_LANG_CODES : List (Nat × Nat) :=
  [(0x0409, 0x04E4), (0x0409, 0x04B0), (0x0000, 0x04E4),
   (0x0409, 0x0000), (0x0000, 0x0000), (0x0000, 0x04B0)]

/-- The OS's responses for one executable's version-information resource,
parametrising the Win32 calls made by get_display_name:
versionInfoSize is GetFileVersionInfoSizeW's result (0 = failure);
getVersionInfoOk is whether GetFileVersionInfoW succeeded;
translation is the VerQueryValueW "\VarFileInfo\Translation" result
(none = query failed, otherwise the slice of (language, code-page) pairs,
possibly empty when the reported length is 0);
query is the per-pair VerQueryValueW ProductName result (none = query failed,
some (len, s) = success with reported length len and decoded string s, where
s holds the len - 1 UTF-16 units at the returned pointer). -/
structure VersionApi where
  versionInfoSize : Nat
  getVersionInfoOk : Bool
  translation : Option (List (Nat × Nat))
  query : Nat × Nat → Option (Nat × String)

/-- read_product_name (src/client/src/win.rs lines 49-91): queries the
ProductName string for one (language, code-page) pair; VerQueryValueW failure
or a reported length of 0 yields Err(()), otherwise Ok with the decoded
string. -/
def read_product_name (api : VersionApi) (lang_code_page : Nat × Nat) :
    Except Unit String :=
  match api.query lang_code_page with
  | none => Except.error ()
  | some (product_name_length, product_name) =>
    if product_name_length = 0 then Except.error ()
    else Except.ok product_name

/-- The result of one of get_display_name's lookup loops
(src/client/src/win.rs lines 162-172 and 180-190): the first pair whose
read_product_name succeeds yields its string (returned immediately from the
loop); if every pair fails the loop falls through with no result. -/
def firstName (api : VersionApi) : List (Nat × Nat) → Option String
  | [] => none
  | p :: rest =>
    match read_product_name api p with
    | Except.ok product_name => some product_name
    | Except.error _ => firstName api rest

/-- The sequence of pairs a lookup loop actually passes to read_product_name:
every pair up to and including the first success, or the whole list when no
pair succeeds. -/
def attemptedPairs (api : VersionApi) : List (Nat × Nat) → List (Nat × Nat)
  | [] => []
  | p :: rest =>
    match read_product_name api p with
    | Except.ok _ => [p]
    | Except.error _ => p :: attemptedPairs api rest

/-- Process::get_display_name (src/client/src/win.rs lines 95-197): returns
none when the executable has no path, the version-info size query returns 0,
fetching the version-info block fails, the translation-table query fails, or
the translation table is empty; otherwise tries each declared
(language, code-page) pair in order, falling back to FALLBACK_LANG_CODES when
every declared pair fails, and returns none when the fallback pairs all fail
too. -/
def get_display_name (executable_path : Option PathC) (api : VersionApi) :
    Option String :=
  match executable_path with
  | none => none
  | some _ =>
    if api.versionInfoSize = 0 then none
    else if api.getVersionInfoOk = false then none
    else
      match api.translation with
      | none => none
      | some lang_code_pages =>
        if lang_code_pages = [] then none
        else
          match firstName api lang_code_pages with
          | some product_name => some product_name
          | none => firstName api FALLBACK_LANG_CODES

theorem firstName_append_of_errors (api : VersionApi) {l1 : List (Nat × Nat)}
    (h : ∀ p ∈ l1, read_product_name api p = Except.error ())
    (l2 : List (Nat × Nat)) :
    firstName api (l1 ++ l2) = firstName api l2 := by
  induction l1 with
  | nil => rfl
  | cons a l1 ih =>
    have ha := h a (List.mem_cons_self a l1)
    simp only [List.cons_append, firstName, ha]
    exact ih (fun p hp => h p (List.mem_cons_of_mem a hp))

theorem firstName_eq_none_of_errors (api : VersionApi) {l : List (Nat × Nat)}
    (h : ∀ p ∈ l, read_product_name api p = Except.error ()) :
    firstName api l = none := by
  induction l with
  | nil => rfl
  | cons a l ih =>
    have ha := h a (List.mem_cons_self a l)
    simp only [firstName, ha]
    exact ih (fun p hp => h p (List.mem_cons_of_mem a hp))

theorem attemptedPairs_short_circuit (api : VersionApi)
    {l1 : List (Nat × Nat)} (k : Nat × Nat) (l2 : List (Nat × Nat))
    {s : String}
    (h : ∀ p ∈ l1, read_product_name api p = Except.error ())
    (hk : read_product_name api k = Except.ok s) :
    attemptedPairs api (l1 ++ k :: l2) = l1 ++ [k] := by
  induction l1 with
  | nil => simp only [List.nil_append, attemptedPairs, hk]
  | cons a l1 ih =>
    have ha := h a (List.mem_cons_self a l1)
    simp only [List.cons_append, attemptedPairs, ha, List.append_eq]
    rw [ih (fun p hp => h p (List.mem_cons_of_mem a hp))]

theorem get_display_name_of_translation (exe : PathC) (api : VersionApi)
    (hsz : api.versionInfoSize ≠ 0) (hok : api.getVersionInfoOk = true)
    {pairs : List (Nat × Nat)} (ht : api.translation = some pairs)
    (hne : pairs ≠ []) :
    get_display_name (some exe) api =
      match firstName api pairs with
      | some product_name => some product_name
      | none => firstName api FALLBACK_LANG_CODES := by
  have h1 : ¬(api.getVersionInfoOk = false) := by
    rw [hok]
    simp
  simp only [get_display_name, ht, if_neg hsz, if_neg h1, if_neg hne]

/-- C2: for a translation table whose pairs before the K-th all fail the
ProductName lookup while the K-th succeeds with a non-empty string, the
resolver returns that string and attempts no lookup past the K-th pair; for a
non-empty table whose pairs all fail, the resolver tries the six fixed
fallback pairs in order, returns the first success there, and returns none
when every fallback pair fails as well. -/
theorem C2_short_circuit_and_fallback (api : VersionApi) (exe : PathC)
    (hsz : api.versionInfoSize ≠ 0) (hok : api.getVersionInfoOk = true) :
    (∀ l1 k l2 s, api.translation = some (l1 ++ k :: l2) →
        (∀ p ∈ l1, read_product_name api p = Except.error ()) →
        read_product_name api k = Except.ok s → s ≠ "" →
        get_display_name (some exe) api = some s ∧
        attemptedPairs api (l1 ++ k :: l2) = l1 ++ [k]) ∧
    (∀ pairs, api.translation = some pairs → pairs ≠ [] →
        (∀ p ∈ pairs, read_product_name api p = Except.error ()) →
        get_display_name (some exe) api = firstName api FALLBACK_LANG_CODES ∧
        (∀ f1 fk f2 t, FALLBACK_LANG_CODES = f1 ++ fk :: f2 →
            (∀ p ∈ f1, read_product_name api p = Except.error ()) →
            read_product_name api fk = Except.ok t →
            get_display_name (some exe) api = some t) ∧
        ((∀ p ∈ FALLBACK_LANG_CODES,
              read_product_name api p = Except.error ()) →
            get_display_name (some exe) api = none)) := by
  constructor
  · intro l1 k l2 s ht herr hk _hs
    have hne : l1 ++ k :: l2 ≠ [] := by simp
    rw [get_display_name_of_translation exe api hsz hok ht hne,
      firstName_append_of_errors api herr (k :: l2)]
    constructor
    · simp only [firstName, hk]
    · exact attemptedPairs_short_circuit api k l2 herr hk
  · intro pairs ht hne hall
    have hnone : firstName api pairs = none :=
      firstName_eq_none_of_errors api hall
    have hbase :
        get_display_name (some exe) api = firstName api FALLBACK_LANG_CODES := by
      rw [get_display_name_of_translation exe api hsz hok ht hne, hnone]
    refine ⟨hbase, ?_, ?_⟩
    · intro f1 fk f2 t hfb hf1 hfk
      rw [hbase, hfb, firstName_append_of_errors api hf1 (fk :: f2)]
      simp only [firstName, hfk]
    · intro hfb
      rw [hbase]
      exact firstName_eq_none_of_errors api hfb

/-- OS responses used by the C2 witness: the translation table declares pairs
(1, 1) and (2, 2); the ProductName query fails for (1, 1) and succeeds for
(2, 2) with "Game". -/
def apiC2 : VersionApi where
  versionInfoSize := 64
  getVersionInfoOk := true
  translation := some [(1, 1), (2, 2)]
  query := fun p => if p = (2, 2) then some (5, "Game") else none

/-- Witness for C2: with apiC2 the resolver returns "Game" and attempts both
declared pairs (the failing first pair, then the succeeding second one). -/
theorem C2_short_circuit_and_fallback_witness :
    get_display_name (some ["C:", "Games", "game.exe"]) apiC2 = some "Game" ∧
    attemptedPairs apiC2 [(1, 1), (2, 2)] = [(1, 1), (2, 2)] :=
  (C2_short_circuit_and_fallback apiC2 ["C:", "Games", "game.exe"] (by decide) rfl).1
    [(1, 1)] (2, 2) [] "Game" rfl
    (by
      intro p hp
      simp only [List.mem_singleton] at hp
      subst hp
      rfl)
    rfl (by decide)

/-- OS responses refuting C1: the translation-table query succeeds but reports
an empty table, while the first fallback pair (0x0409, 0x04E4) would resolve
to ProductName "App". -/
def apiC1 : VersionApi where
  versionInfoSize := 64
  getVersionInfoOk := true
  translation := some []
  query := fun p => if p = (0x0409, 0x04E4) then some (4, "App") else none

/-- Counterexample to C1: with an empty translation table, get_display_name
returns none even though the fallback-pair lookups would have produced "App";
resolution does not skip to the fallback list as the claim states. -/
theorem C1_counterexample :
    get_display_name (some ["C:", "Games", "app.exe"]) apiC1 = none ∧
    firstName apiC1 FALLBACK_LANG_CODES = some "App" ∧
    get_display_name (some ["C:", "Games", "app.exe"]) apiC1 ≠
      firstName apiC1 FALLBACK_LANG_CODES :=
  ⟨rfl, rfl, by decide⟩

/-- C1 as amended: when the translation-table query fails (table absent) or
the table is empty, get_display_name returns none immediately and never
consults the fallback list (regardless of how the fallback lookups would have
answered). -/
theorem C1_empty_translation_returns_none (executable_path : Option PathC)
    (api : VersionApi)
    (h : api.translation = none ∨ api.translation = some []) :
    get_display_name executable_path api = none := by
  cases executable_path with
  | none => rfl
  | some exe =>
    rcases h with h | h <;> simp [get_display_name, h]

/-- Witness for the amended C1 at the concrete apiC1 responses. -/
theorem C1_empty_translation_returns_none_witness :
    get_display_name (some ["C:", "Games", "app.exe"]) apiC1 = none :=
  C1_empty_translation_returns_none (some ["C:", "Games", "app.exe"]) apiC1 (Or.inr rfl)

/-! ## Process lifecycle monitor (src/client/src/main.rs) -/

/-- Win32_Process instance data carried by WMI events
(src/client/src/win.rs, struct Process). The executable path, when present,
is carried as its parsed component list (see PathC). -/
structure Process where
  process_id : Nat
  name : String
  executable_path : Option PathC
  parent_process_id : Nat

/-- __InstanceCreationEvent (src/client/src/win.rs lines 26-31). -/
structure ProcessStartEvent where
  target_instance : Process

/-- __InstanceDeletionEvent (src/client/src/win.rs lines 32-37). -/
structure ProcessEndEvent where
  target_instance : Process

/-- Watch (src/client/src/main.rs lines 17-21): the Instant captured at
admission (timestamps are modelled as nanoseconds since an arbitrary epoch),
the executable name, and the optional resolved display name. -/
structure Watch where
  start : Nat
  executable : String
  name : Option String
  deriving DecidableEq

/-- Watch::new (src/client/src/main.rs lines 23-35): resolves the display name
via Process::get_display_name and pairs the process id with the fresh Watch;
now is the Instant::now() value and api the OS version-info responses for the
process's executable. -/
def Watch.new (api : VersionApi) (now : Nat) (process : Process) :
    Nat × Watch :=
  (process.process_id,
   { start := now,
     executable := process.name,
     name := get_display_name process.executable_path api })

/-- The watch table (type ProcessWatchMap, src/client/src/main.rs line 15):
a HashMap from process id to Watch, modelled as an association list whose
operations mirror HashMap semantics (insert replaces any entry with the same
key). -/
abbrev ProcessWatchMap := List (Nat × Watch)

/-- HashMap::get semantics on the association list. -/
def mapLookup (k : Nat) : ProcessWatchMap → Option Watch
  | [] => none
  | (k2, v) :: rest => if k2 = k then some v else mapLookup k rest

/-- Removal of every entry keyed k (HashMap keys are unique, so this is
HashMap::remove's effect on the table). -/
def mapErase (k : Nat) : ProcessWatchMap → ProcessWatchMap
  | [] => []
  | e :: rest => if e.1 = k then mapErase k rest else e :: mapErase k rest

/-- HashMap::insert semantics: the new entry replaces any entry keyed k. -/
def mapInsert (k : Nat) (v : Watch) (m : ProcessWatchMap) : ProcessWatchMap :=
  (k, v) :: mapErase k m

/-- Number of table entries keyed k. -/
def countKey (k : Nat) : ProcessWatchMap → Nat
  | [] => 0
  | e :: rest => (if e.1 = k then 1 else 0) + countKey k rest

/-- Submission (src/shared/src/lib.rs lines 7-12): duration in whole seconds
(u64), executable name, optional display name. -/
structure Submission where
  duration : Nat
  executable : String
  name : Option String
  deriving DecidableEq

/-- handle_process_start (src/client/src/main.rs lines 37-80): a feed-level
error (Err from the WMI stream, modelled as an opaque message) is logged and
skipped; an event with no executable path is discarded; an event whose path
the current configuration snapshot does not monitor is discarded; otherwise
Watch::new builds the Watch and it is inserted keyed by the process id.
Returns the updated table. -/
def handle_process_start (cfg : Config) (api : VersionApi) (now : Nat)
    (map : ProcessWatchMap) (event : Except String ProcessStartEvent) :
    ProcessWatchMap :=
  match event with
  | Except.error _ => map
  | Except.ok ev =>
    match ev.target_instance.executable_path with
    | none => map
    | some path =>
      if cfg.is_monitored path = false then map
      else
        let pidWatch := Watch.new api now ev.target_instance
        mapInsert pidWatch.1 pidWatch.2 map

/-- handle_process_end (src/client/src/main.rs lines 82-122): a feed-level
error is logged and skipped; an event whose process id is not in the table is
discarded silently; otherwise the Watch is removed, the elapsed time is
truncated to whole seconds (Instant::elapsed().as_secs(), with timestamps in
nanoseconds), and a Submission is handed to submit exactly when that duration
reaches the snapshot's minimum_duration. Returns the updated table and the
submission passed on, if any. -/
def handle_process_end (cfg : Config) (now : Nat) (map : ProcessWatchMap)
    (event : Except String ProcessEndEvent) :
    ProcessWatchMap × Option Submission :=
  match event with
  | Except.error _ => (map, none)
  | Except.ok ev =>
    match mapLookup ev.target_instance.process_id map with
    | none => (map, none)
    | some watch =>
      let map1 := mapErase ev.target_instance.process_id map
      let duration_seconds := (now - watch.start) / 1000000000
      if duration_seconds < cfg.minimum_duration then (map1, none)
      else
        (map1,
         some { duration := duration_seconds,
                executable := watch.executable,
                name := watch.name })

theorem countKey_mapErase_self (k : Nat) (m : ProcessWatchMap) :
    countKey k (mapErase k m) = 0 := by
  induction m with
  | nil => rfl
  | cons e m ih =>
    by_cases he : e.1 = k
    · simpa [mapErase, he] using ih
    · simpa [mapErase, countKey, he] using ih

theorem countKey_mapErase_ne (k k2 : Nat) (h : k2 ≠ k)
    (m : ProcessWatchMap) : countKey k2 (mapErase k m) = countKey k2 m := by
  induction m with
  | nil => rfl
  | cons e m ih =>
    by_cases he : e.1 = k
    · have he2 : ¬(e.1 = k2) := fun hx => h (hx.symm.trans he)
      simp [mapErase, countKey, he, he2, Ne.symm h, ih]
    · simp [mapErase, countKey, he, ih]

theorem countKey_mapInsert_self (k : Nat) (v : Watch) (m : ProcessWatchMap) :
    countKey k (mapInsert k v m) = 1 := by
  simp [mapInsert, countKey, countKey_mapErase_self]

theorem countKey_mapInsert_ne (k k2 : Nat) (v : Watch) (h : k2 ≠ k)
    (m : ProcessWatchMap) : countKey k2 (mapInsert k v m) = countKey k2 m := by
  have hk : ¬(k = k2) := fun hx => h hx.symm
  simp [mapInsert, countKey, hk, countKey_mapErase_ne k k2 h]

theorem mapLookup_mapInsert_self (k : Nat) (v : Watch)
    (m : ProcessWatchMap) : mapLookup k (mapInsert k v m) = some v := by
  simp [mapInsert, mapLookup]

theorem handle_process_start_admitted (cfg : Config) (api : VersionApi)
    (now : Nat) (map : ProcessWatchMap) (ev : ProcessStartEvent)
    {path : PathC} (hp : ev.target_instance.executable_path = some path)
    (hm : cfg.is_monitored path = true) :
    handle_process_start cfg api now map (Except.ok ev) =
      mapInsert ev.target_instance.process_id
        { start := now,
          executable := ev.target_instance.name,
          name := get_display_name (some path) api } map := by
  simp [handle_process_start, hp, hm, Watch.new]

/-- C5: an admitted start event (executable path present and monitored)
yields a table holding exactly one entry keyed by the event's process id,
namely the freshly built Watch; entries under other keys are untouched; and a
second admitted start event with the same process id replaces the entry,
leaving again exactly one entry for that id. -/
theorem C5_admitted_start_unique_entry (cfg : Config) (api : VersionApi)
    (now : Nat) (map : ProcessWatchMap) (ev : ProcessStartEvent)
    {path : PathC} (hp : ev.target_instance.executable_path = some path)
    (hm : cfg.is_monitored path = true) :
    mapLookup ev.target_instance.process_id
        (handle_process_start cfg api now map (Except.ok ev)) =
      some { start := now,
             executable := ev.target_instance.name,
             name := get_display_name (some path) api } ∧
    countKey ev.target_instance.process_id
        (handle_process_start cfg api now map (Except.ok ev)) = 1 ∧
    (∀ k2, k2 ≠ ev.target_instance.process_id →
        countKey k2 (handle_process_start cfg api now map (Except.ok ev)) =
          countKey k2 map) ∧
    (∀ (api2 : VersionApi) (now2 : Nat) (ev2 : ProcessStartEvent)
        (path2 : PathC),
        ev2.target_instance.process_id = ev.target_instance.process_id →
        ev2.target_instance.executable_path = some path2 →
        cfg.is_monitored path2 = true →
        countKey ev.target_instance.process_id
          (handle_process_start cfg api2 now2
            (handle_process_start cfg api now map (Except.ok ev))
            (Except.ok ev2)) = 1 ∧
        mapLookup ev.target_instance.process_id
          (handle_process_start cfg api2 now2
            (handle_process_start cfg api now map (Except.ok ev))
            (Except.ok ev2)) =
          some { start := now2,
                 executable := ev2.target_instance.name,
                 name := get_display_name (some path2) api2 }) := by
  rw [handle_process_start_admitted cfg api now map ev hp hm]
  refine ⟨mapLookup_mapInsert_self _ _ _, countKey_mapInsert_self _ _ _,
    fun k2 hk2 => countKey_mapInsert_ne _ _ _ hk2 _, ?_⟩
  intro api2 now2 ev2 path2 hpid hp2 hm2
  rw [handle_process_start_admitted cfg api2 now2 _ ev2 hp2 hm2, hpid]
  exact ⟨countKey_mapInsert_self _ _ _, mapLookup_mapInsert_self _ _ _⟩

/-- OS responses for witnesses where name resolution finds nothing (the size
query already fails). -/
def apiNone : VersionApi where
  versionInfoSize := 0
  getVersionInfoOk := false
  translation := none
  query := fun _ => none

/-- Configuration used by the handler witnesses: minimum duration 30 seconds,
monitoring the single path C:\Games. -/
def cfgW : Config where
  minimum_duration := 30
  monitor := [["C:", "Games"]]
  url := "http://collector.example"
  secret := none

/-- Start event for process id 100 at the monitored path C:\Games\app.exe. -/
def evStart100 : ProcessStartEvent where
  target_instance :=
    { process_id := 100,
      name := "app.exe",
      executable_path := some ["C:", "Games", "app.exe"],
      parent_process_id := 1 }

/-- Witness for C5: admitting evStart100 into an empty table yields exactly
the one expected entry. -/
theorem C5_admitted_start_unique_entry_witness :
    mapLookup 100 (handle_process_start cfgW apiNone 0 [] (Except.ok evStart100)) =
      some { start := 0, executable := "app.exe", name := none } ∧
    countKey 100 (handle_process_start cfgW apiNone 0 [] (Except.ok evStart100)) = 1 := by
  have h := C5_admitted_start_unique_entry cfgW apiNone 0 [] evStart100 rfl
    (by decide)
  exact ⟨h.1, h.2.1⟩

/-- C7: a start event carrying no executable path creates no watch-table
entry: under every configuration the table is returned unchanged (the event
is rejected without the configuration influencing the outcome). -/
theorem C7_pathless_start_discarded (api : VersionApi) (now : Nat)
    (map : ProcessWatchMap) (ev : ProcessStartEvent)
    (hp : ev.target_instance.executable_path = none) :
    ∀ cfg : Config,
      handle_process_start cfg api now map (Except.ok ev) = map := by
  intro cfg
  simp [handle_process_start, hp]

/-- Start event for a pathless process (system process without a reported
executable path). -/
def evStartPathless : ProcessStartEvent where
  target_instance :=
    { process_id := 4,
      name := "System",
      executable_path := none,
      parent_process_id := 0 }

/-- Witness for C7 at a concrete pathless event and configuration. -/
theorem C7_pathless_start_discarded_witness :
    handle_process_start cfgW apiNone 0 [] (Except.ok evStartPathless) = [] :=
  C7_pathless_start_discarded apiNone 0 [] evStartPathless rfl cfgW

/-- C6: an end event whose process id is not a key of the table leaves the
table unchanged and produces no submission. -/
theorem C6_unmatched_end_no_effect (cfg : Config) (now : Nat)
    (map : ProcessWatchMap) (ev : ProcessEndEvent)
    (h : mapLookup ev.target_instance.process_id map = none) :
    handle_process_end cfg now map (Except.ok ev) = (map, none) := by
  simp [handle_process_end, h]

/-- End event for process id 200 (never admitted). -/
def evEnd200 : ProcessEndEvent where
  target_instance :=
    { process_id := 200,
      name := "other.exe",
      executable_path := some ["C:", "Other", "app.exe"],
      parent_process_id := 1 }

/-- Witness for C6: an end event against the empty table has no effect. -/
theorem C6_unmatched_end_no_effect_witness :
    handle_process_end cfgW 45000000000 [] (Except.ok evEnd200) = ([], none) :=
  C6_unmatched_end_no_effect cfgW 45000000000 [] evEnd200 rfl

/-- C4: for a Watch present in the table when its end event arrives, the
session duration is end-time minus the Watch's start time truncated to whole
seconds; strictly below the snapshot's minimum_duration no submission is
made, and at or above it exactly one Submission (carrying that duration) is
handed to the Submission Client. -/
theorem C4_duration_threshold (cfg : Config) (now : Nat)
    (map : ProcessWatchMap) (ev : ProcessEndEvent) {watch : Watch}
    (h : mapLookup ev.target_instance.process_id map = some watch) :
    ((now - watch.start) / 1000000000 < cfg.minimum_duration →
        (handle_process_end cfg now map (Except.ok ev)).2 = none) ∧
    (cfg.minimum_duration ≤ (now - watch.start) / 1000000000 →
        (handle_process_end cfg now map (Except.ok ev)).2 =
          some { duration := (now - watch.start) / 1000000000,
                 executable := watch.executable,
                 name := watch.name }) := by
  constructor
  · intro hlt
    simp [handle_process_end, h, hlt]
  · intro hge
    simp [handle_process_end, h, Nat.not_lt.mpr hge]

/-- Table holding the Watch for process id 100, started at time 0. -/
def mapW : ProcessWatchMap :=
  [(100, { start := 0, executable := "app.exe", name := some "App" })]

/-- End event for process id 100. -/
def evEnd100 : ProcessEndEvent where
  target_instance :=
    { process_id := 100,
      name := "app.exe",
      executable_path := some ["C:", "Games", "app.exe"],
      parent_process_id := 1 }

/-- Witness for C4: ending the 45-second-old watch for process 100 under the
30-second threshold submits exactly one session of 45 seconds. -/
theorem C4_duration_threshold_witness :
    (handle_process_end cfgW 45000000000 mapW (Except.ok evEnd100)).2 =
      some { duration := 45, executable := "app.exe", name := some "App" } := by
  have h := (C4_duration_threshold cfgW 45000000000 mapW evEnd100 rfl).2
    (by decide)
  exact h

/-! ## Submission client (src/client/src/main.rs, fn submit) -/

/-- The logged outcome of one submit call. -/
inductive SubmitOutcome where
  | urlError
  | success
  | serverError
  | unauthorizedError
  | unknownResponse (code : Nat)
  | networkError
  deriving DecidableEq

/-- submit (src/client/src/main.rs lines 124-155): when the configured base
URL fails Url::parse(..).join("/submit") no request is sent (urlOk false);
otherwise exactly one POST is sent and the response status is interpreted by
the match on lines 139-148 (201 Created = success, 500 Internal Server Error,
401 Unauthorized, catch-all for every other code), a missing response being a
network error. response carries the HTTP status code, none for a network
failure. Returns how many requests were sent and the logged outcome. -/
def submit (urlOk : Bool) (response : Option Nat) : Nat × SubmitOutcome :=
  if urlOk then
    match response with
    | none => (1, SubmitOutcome.networkError)
    | some status_code =>
      if status_code = 201 then (1, SubmitOutcome.success)
      else if status_code = 500 then (1, SubmitOutcome.serverError)
      else if status_code = 401 then (1, SubmitOutcome.unauthorizedError)
      else (1, SubmitOutcome.unknownResponse status_code)
  else (0, SubmitOutcome.urlError)

/-- C8: the success path is taken exactly on status 201, the unauthenticated
path exactly on 401, the server-error path exactly on 500, and the unknown
path on every other status; and no call of submit ever sends more than one
request (no retries). -/
theorem C8_status_interpretation :
    (∀ code : Nat,
        ((submit true (some code)).2 = SubmitOutcome.success ↔ code = 201) ∧
        ((submit true (some code)).2 = SubmitOutcome.unauthorizedError ↔
          code = 401) ∧
        ((submit true (some code)).2 = SubmitOutcome.serverError ↔
          code = 500) ∧
        (code ≠ 201 → code ≠ 401 → code ≠ 500 →
          (submit true (some code)).2 = SubmitOutcome.unknownResponse code)) ∧
    (∀ (urlOk : Bool) (response : Option Nat),
        (submit urlOk response).1 ≤ 1) := by
  constructor
  · intro code
    by_cases h1 : code = 201 <;> by_cases h2 : code = 500 <;>
      by_cases h3 : code = 401 <;> simp_all [submit]
  · intro urlOk response
    cases urlOk with
    | false => simp [submit]
    | true =>
      cases response with
      | none => simp [submit]
      | some code =>
        simp only [submit, if_true]
        split_ifs <;> simp

/-- Witness for C8 at status 404 (unknown path, a single request sent). -/
theorem C8_status_interpretation_witness :
    (submit true (some 404)).2 = SubmitOutcome.unknownResponse 404 ∧
    (submit true (some 404)).1 ≤ 1 :=
  ⟨(C8_status_interpretation.1 404).2.2.2 (by decide) (by decide) (by decide),
   C8_status_interpretation.2 true (some 404)⟩

/-! ## Configuration reload (src/client/src/main.rs lines 179-189) -/

/-- The reload callback registered with the file watcher (src/client/src/main.rs
lines 181-189): a watcher error leaves the shared snapshot untouched; on a
change notification Config::load runs on the event's first path and the
snapshot is replaced only when loading succeeds. current is the snapshot
before the notification, loader models Config::load (src/client/src/config.rs
lines 61-66: File::open and serde_yaml failures give Err); the result is the
snapshot afterwards. -/
def config_watch_callback (loader : String → Except ConfigError Config)
    (current : Config) (res : Except String String) : Config :=
  match res with
  | Except.error _ => current
  | Except.ok path =>
    match loader path with
    | Except.ok new_config => new_config
    | Except.error _ => current

/-- C9: when reloading the configuration after a change notification fails,
the shared snapshot keeps its previous value; the snapshot is replaced
exactly when the new file loads successfully; watcher errors also leave it
untouched. -/
theorem C9_failed_reload_keeps_config
    (loader : String → Except ConfigError Config) (current : Config)
    (path : String) :
    (∀ e, loader path = Except.error e →
        config_watch_callback loader current (Except.ok path) = current) ∧
    (∀ c, loader path = Except.ok c →
        config_watch_callback loader current (Except.ok path) = c) ∧
    (∀ msg, config_watch_callback loader current (Except.error msg) = current) := by
  refine ⟨?_, ?_, fun msg => rfl⟩
  · intro e he
    simp [config_watch_callback, he]
  · intro c hc
    simp [config_watch_callback, hc]

/-- Witness for C9: a loader that always fails with an IO error leaves the
concrete snapshot cfgW in place. -/
theorem C9_failed_reload_keeps_config_witness :
    config_watch_callback (fun _ => Except.error ConfigError.IOError) cfgW
      (Except.ok "client.yaml") = cfgW :=
  (C9_failed_reload_keeps_config (fun _ => Except.error ConfigError.IOError)
      cfgW "client.yaml").1 ConfigError.IOError rfl

end Beelzebub
